import Mathlib

/-!
# Journal météo: storage layer (`js/storage.js`, `js/idb.js`)

A shallow embedding of the storage layer of the weather journal and the
properties of its migration, accessors, period sums, import/export and date
listings.

Modelling conventions

* A JavaScript value that can live in the record is a `JSValue` (the JSON
  fragment of the language). `undefined` is `none` of an `Option JSValue`.
  A number of the record is a double, held as its exact rational value:
  `NaN`, the infinities and the negative zero are not values of the record.
  The addition of the period sums is the one of the engine, with its rounding
  and its coercions: it is a field of the `Platform`, and its result is a
  `JSTotal`.
* A plain object is the list of its own properties, `JSObject`. A property
  write keeps the position of an existing key and appends a new one. A real
  object never holds a key twice; statements that read a value back out of a
  given object assume `objKeys o` has no duplicate. The list of a given object
  is in the order in which the engine enumerates it. The engine lists
  integer-like keys first, so a write of such a key is appended here where the
  engine would place it earlier: the statements about writes and merges
  observe reads and key sets, not the order. Properties inherited from
  `Object.prototype` are not modelled: keys are date strings.
* The record, in memory and in the store, is a `WeatherData`: an object with
  its four series. Every path of the storage layer builds it so; a series
  missing from a stored record would spread like an empty one. What comes
  from outside, the legacy text and an imported file, is an arbitrary
  `JSValue`.
* The browser services the code calls (`JSON.parse`, `JSON.stringify`,
  `Date` parsing, the clock, success or failure of an IndexedDB request, the
  presentation refresh) are the fields of a `Platform`.
* An `async` function is run to completion as one step.
-/

namespace Meteo

/-! ## JavaScript values and plain objects -/

/-- The JSON fragment of JavaScript values. -/
inductive JSValue where
  | null
  | bool (b : Bool)
  | num (q : ℚ)
  | str (s : String)
  | arr (items : List JSValue)
  | obj (props : List (String × JSValue))

/-- The own properties of a plain object, in insertion order. -/
abbrev JSObject := List (String × JSValue)

/-- The abstract operation `ToBoolean`: what `if (v)` and `v || d` test. `none` is `undefined`. -/
def truthy : Option JSValue → Bool
  | none => false
  | some JSValue.null => false
  | some (JSValue.bool b) => b
  | some (JSValue.num q) => decide (q ≠ 0)
  | some (JSValue.str s) => decide (s ≠ "")
  | some (JSValue.arr _) => true
  | some (JSValue.obj _) => true

/-- The expression `a || d`. -/
def jsOr (a : Option JSValue) (d : JSValue) : JSValue :=
  match a with
  | some v => if truthy (some v) then v else d
  | none => d

/-- The `typeof` operator. -/
def typeof : JSValue → String
  | JSValue.null => "object"
  | JSValue.bool _ => "boolean"
  | JSValue.num _ => "number"
  | JSValue.str _ => "string"
  | JSValue.arr _ => "object"
  | JSValue.obj _ => "object"

/-- The read `o[k]` on a plain object: the own property `k`, or `undefined`. -/
def objGet : JSObject → String → Option JSValue
  | [], _ => none
  | (k', v') :: rest, k => if k' = k then some v' else objGet rest k

/-- The write `o[k] = v` on a plain object. -/
def objSet : JSObject → String → JSValue → JSObject
  | [], k, v => [(k, v)]
  | (k', v') :: rest, k, v =>
    if k' = k then (k', v) :: rest else (k', v') :: objSet rest k v

/-- The statement `delete o[k]` on a plain object. -/
def objDelete : JSObject → String → JSObject
  | [], _ => []
  | (k', v') :: rest, k =>
    if k' = k then objDelete rest k else (k', v') :: objDelete rest k

/-- The call `Object.keys(o)`. -/
def objKeys (o : JSObject) : List String :=
  o.map Prod.fst

/-- The entries `0 ↦ x₀, 1 ↦ x₁, …` of an array-like, starting at index `i`. -/
def indexed : Nat → List JSValue → JSObject
  | _, [] => []
  | i, x :: xs => (toString i, x) :: indexed (i + 1) xs

/-- The own enumerable properties that `{...v}` copies. `undefined`, `null`,
numbers and booleans contribute nothing; an array contributes its indices; a
string contributes one property per character (per UTF-16 unit in the engine,
which differs only for characters outside the basic plane). -/
def ownEntries : Option JSValue → JSObject
  | some (JSValue.obj props) => props
  | some (JSValue.arr items) => indexed 0 items
  | some (JSValue.str s) => indexed 0 (s.data.map (fun c => JSValue.str (String.mk [c])))
  | _ => []

/-- Copy the properties of `src` onto `target`, as one `...src` does inside an
object literal. -/
def spreadInto (target : JSObject) (src : Option JSValue) : JSObject :=
  (ownEntries src).foldl (fun o p => objSet o p.1 p.2) target

/-- The object literal `{ ...a, ...b }`. -/
def spread2 (a b : Option JSValue) : JSObject :=
  spreadInto (spreadInto [] a) b

/-- A property read `v.name` for a name that no prototype defines: a
`TypeError` (`none`) on `null`, the own property on an object, `undefined`
on everything else. -/
def getProp (v : JSValue) (name : String) : Option (Option JSValue) :=
  match v with
  | JSValue.null => none
  | JSValue.obj props => some (objGet props name)
  | _ => some none

/-! ## Strings: `trim` and the default sort order -/

/-- The code points `String.prototype.trim` strips: WhiteSpace and
LineTerminator of ECMAScript. -/
def isJSWhiteSpace (c : Char) : Bool :=
  let n := c.toNat
  n = 0x09 || n = 0x0A || n = 0x0B || n = 0x0C || n = 0x0D || n = 0x20 ||
  n = 0xA0 || n = 0x1680 || (0x2000 ≤ n && n ≤ 0x200A) || n = 0x2028 ||
  n = 0x2029 || n = 0x202F || n = 0x205F || n = 0x3000 || n = 0xFEFF

/-- The call `s.trim()`. -/
def jsTrim (s : String) : String :=
  String.mk ((s.data.dropWhile isJSWhiteSpace).reverse.dropWhile isJSWhiteSpace).reverse

/-- The UTF-16 code units of a character. -/
def utf16Units (c : Char) : List Nat :=
  if c.toNat < 0x10000 then [c.toNat]
  else [0xD800 + (c.toNat - 0x10000) / 0x400, 0xDC00 + (c.toNat - 0x10000) % 0x400]

/-- The UTF-16 code units of a string. -/
def toUTF16 (s : String) : List Nat :=
  s.data.flatMap utf16Units

/-- The order `Array.prototype.sort()` uses without a comparator: strings
compared lexicographically by UTF-16 code unit. -/
def jsStringLE (a b : String) : Prop :=
  toUTF16 a ≤ toUTF16 b

instance : DecidableRel jsStringLE :=
  fun a b => inferInstanceAs (Decidable (toUTF16 a ≤ toUTF16 b))

instance : IsTotal String jsStringLE :=
  ⟨fun a b => le_total (toUTF16 a) (toUTF16 b)⟩

instance : IsTrans String jsStringLE :=
  ⟨fun _ _ _ hab hbc => @le_trans (List Nat) _ _ _ _ hab hbc⟩

/-- The call `keys.sort()`, as an insertion sort on the code unit order. -/
def jsSort (keys : List String) : List String :=
  keys.insertionSort jsStringLE

/-! ## The record, the browser and the application state -/

/-- The aggregate record: `{ rainfall, temperature, comments, watts }`. -/
structure WeatherData where
  rainfall : JSObject
  temperature : JSObject
  comments : JSObject
  watts : JSObject

/-- The literal `{ rainfall: {}, temperature: {}, comments: {}, watts: {} }`. -/
def emptyWeatherData : WeatherData :=
  { rainfall := [], temperature := [], comments := [], watts := [] }

/-- The record as a JavaScript value. -/
def WeatherData.toJS (w : WeatherData) : JSValue :=
  JSValue.obj [("rainfall", JSValue.obj w.rainfall),
               ("temperature", JSValue.obj w.temperature),
               ("comments", JSValue.obj w.comments),
               ("watts", JSValue.obj w.watts)]

/-- The calls to `showNotification` made by the storage layer. -/
inductive Notification where
  /-- Message "Données importées avec succès", type success. -/
  | importSuccess
  /-- Message "Erreur lors de l-importation. Vérifiez le fichier.", type warning. -/
  | importError
  /-- Message "Impossible de lire le fichier", type warning. -/
  | fileReadError
  /-- Message "Données exportées avec succès", type success. -/
  | exportSuccess
  /-- Message "Erreur lors de l-export", type warning. -/
  | exportError
  /-- Message "Erreur lors de la sauvegarde", type warning. -/
  | saveError
  deriving DecidableEq

/-- A value of the variable `total` of a period sum: a finite number (a
double, by its exact value), not-a-number, an infinity, or a text once a
string was added. -/
inductive JSTotal where
  | num (q : ℚ)
  | nan
  | posInf
  | negInf
  | str (s : String)

/-- The browser services the storage layer relies on. -/
structure Platform where
  /-- The function `JSON.parse`; `none` is a thrown `SyntaxError`. -/
  jsonParse : String → Option JSValue
  /-- The call `JSON.stringify(v, null, 2)`. -/
  jsonStringify : JSValue → String
  /-- The time value of `new Date(s)` in milliseconds; `none` is an invalid date. -/
  dateParse : String → Option Int
  /-- The operator `total + v` of the engine, `v` being a value of the record
  or `undefined`: on a number the addition of doubles, rounded; on anything
  else the coercions of the language (`null` counts as 0, a string is
  concatenated). -/
  plus : JSTotal → Option JSValue → JSTotal
  /-- The call `new Date().toISOString()`. -/
  nowISO : String
  /-- Whether opening the database and reading record `main` succeeds. -/
  dbReadOk : Bool
  /-- Whether the `put` of record `main` succeeds. -/
  dbWriteOk : Bool
  /-- Whether the presentation refresh after an import returns normally. -/
  refreshOk : Bool

/-- The key of the former storage, `LEGACY_STORAGE_KEY`. -/
def LEGACY_STORAGE_KEY : String := "weather_data"

/-- The call `localStorage.getItem(key)`; `none` is `null`. -/
def getItem : List (String × String) → String → Option String
  | [], _ => none
  | (k', v') :: rest, k => if k' = k then some v' else getItem rest k

/-- The call `localStorage.removeItem(key)`. -/
def removeItem : List (String × String) → String → List (String × String)
  | [], _ => []
  | (k', v') :: rest, k =>
    if k' = k then removeItem rest k else (k', v') :: removeItem rest k

/-- The call `localStorage.setItem(key, value)`. -/
def setItem (ls : List (String × String)) (k v : String) : List (String × String) :=
  removeItem ls k ++ [(k, v)]

/-- What the storage layer reads and writes: the module variable
`weatherData`, record `main` of the IndexedDB store (`none` before the first
write), `localStorage`, the notifications shown and the files downloaded. -/
structure AppState where
  weatherData : WeatherData
  db : Option WeatherData
  localStorage : List (String × String)
  notifications : List Notification
  downloads : List String

/-- The result of `getWeatherDataFromDB` once the request succeeded: the stored record, or
the empty structure when there is none. -/
def getWeatherDataFromDB (st : AppState) : WeatherData :=
  match st.db with
  | some d => d
  | none => emptyWeatherData

/-! ## `loadData` and `saveData` -/

/-- The four merges of the migration; `none` when reading a series of
`legacyData` throws. -/
def mergeLegacy (idbData : WeatherData) (legacyData : JSValue) : Option WeatherData :=
  match getProp legacyData "rainfall", getProp legacyData "temperature",
        getProp legacyData "comments", getProp legacyData "watts" with
  | some r, some t, some c, some w =>
    some { rainfall := spread2 (some (JSValue.obj idbData.rainfall)) r,
           temperature := spread2 (some (JSValue.obj idbData.temperature)) t,
           comments := spread2 (some (JSValue.obj idbData.comments)) c,
           watts := spread2 (some (JSValue.obj idbData.watts)) w }
  | _, _, _, _ => none

/-- The `catch` branch of `loadData`: start from an empty record. -/
def loadDataCatch (st : AppState) : AppState :=
  { st with weatherData := emptyWeatherData }

/-- Function `loadData()`. -/
def loadData (P : Platform) (st : AppState) : AppState :=
  if P.dbReadOk then
    let idbData := getWeatherDataFromDB st
    match getItem st.localStorage LEGACY_STORAGE_KEY with
    | some legacyDataRaw =>
      if legacyDataRaw ≠ "" then
        match P.jsonParse legacyDataRaw with
        | some legacyData =>
          match mergeLegacy idbData legacyData with
          | some mergedData =>
            if P.dbWriteOk then
              { st with weatherData := mergedData,
                        db := some mergedData,
                        localStorage := removeItem st.localStorage LEGACY_STORAGE_KEY }
            else loadDataCatch { st with weatherData := mergedData }
          | none => loadDataCatch st
        | none => loadDataCatch st
      else { st with weatherData := idbData }
    | none => { st with weatherData := idbData }
  else loadDataCatch st

/-- Function `saveData()`. -/
def saveData (P : Platform) (st : AppState) : AppState :=
  if P.dbWriteOk then
    { st with db := some st.weatherData,
              localStorage := setItem st.localStorage "last_backup_date" P.nowISO }
  else
    { st with notifications := st.notifications ++ [Notification.saveError] }

/-- An assignment to `weatherData` fields followed by `saveData()`. -/
def update (P : Platform) (st : AppState) (w : WeatherData) : AppState :=
  saveData P { st with weatherData := w }

/-! ## Accessors -/

/-- Function `getRainfallForDate(date)`. -/
def getRainfallForDate (st : AppState) (date : String) : JSValue :=
  jsOr (objGet st.weatherData.rainfall date) (JSValue.num 0)

/-- Function `setRainfallForDate(date, value)`. -/
def setRainfallForDate (P : Platform) (st : AppState) (date : String) (value : JSValue) :
    AppState :=
  update P st { st.weatherData with rainfall := objSet st.weatherData.rainfall date value }

/-- Function `getAllRainfallDates(ascending = false)`. -/
def getAllRainfallDates (st : AppState) (ascending : Bool := false) : List String :=
  let dates := jsSort (objKeys st.weatherData.rainfall)
  if ascending then dates else dates.reverse

/-- The default value of a temperature entry, `{ morning: null, afternoon: null }`. -/
def noTemperature : JSValue :=
  JSValue.obj [("morning", JSValue.null), ("afternoon", JSValue.null)]

/-- Function `getTemperatureForDate(date)`. -/
def getTemperatureForDate (st : AppState) (date : String) : JSValue :=
  jsOr (objGet st.weatherData.temperature date) noTemperature

/-- Function `setTemperatureForDate(date, morning, afternoon)`. -/
def setTemperatureForDate (P : Platform) (st : AppState) (date : String)
    (morning afternoon : JSValue) : AppState :=
  update P st { st.weatherData with
    temperature := objSet st.weatherData.temperature date
      (JSValue.obj [("morning", morning), ("afternoon", afternoon)]) }

/-- Function `getCommentForDate(date)`. -/
def getCommentForDate (st : AppState) (date : String) : JSValue :=
  jsOr (objGet st.weatherData.comments date) (JSValue.str "")

/-- Function `setCommentForDate(date, comment)`. -/
def setCommentForDate (P : Platform) (st : AppState) (date : String) (comment : String) :
    AppState :=
  if jsTrim comment = "" then
    update P st { st.weatherData with comments := objDelete st.weatherData.comments date }
  else
    update P st { st.weatherData with
      comments := objSet st.weatherData.comments date (JSValue.str comment) }

/-- Function `getAllCommentDates(ascending = false)`. -/
def getAllCommentDates (st : AppState) (ascending : Bool := false) : List String :=
  let dates := jsSort (objKeys st.weatherData.comments)
  if ascending then dates else dates.reverse

/-- Function `getWattForDate(date)`. -/
def getWattForDate (st : AppState) (date : String) : JSValue :=
  jsOr (objGet st.weatherData.watts date) (JSValue.num 0)

/-- Function `setWattForDate(date, value)`. -/
def setWattForDate (P : Platform) (st : AppState) (date : String) (value : JSValue) :
    AppState :=
  update P st { st.weatherData with watts := objSet st.weatherData.watts date value }

/-- Function `getAllWattDates(ascending = false)`. -/
def getAllWattDates (st : AppState) (ascending : Bool := false) : List String :=
  let dates := jsSort (objKeys st.weatherData.watts)
  if ascending then dates else dates.reverse

/-! ## Period sums -/

/-- A `Date` object: its time value in milliseconds, `none` for an invalid date. -/
abbrev JSDate := Option Int

/-- The comparison `a >= b` of two dates; false when either is invalid. -/
def dateGE (a b : JSDate) : Bool :=
  match a, b with
  | some x, some y => decide (y ≤ x)
  | _, _ => false

/-- The comparison `a <= b` of two dates; false when either is invalid. -/
def dateLE (a b : JSDate) : Bool :=
  match a, b with
  | some x, some y => decide (x ≤ y)
  | _, _ => false

/-- The test `date >= startDate && date <= endDate` for `date = new Date(dateStr)`. -/
def inPeriod (P : Platform) (startDate endDate : JSDate) (dateStr : String) : Bool :=
  dateGE (P.dateParse dateStr) startDate && dateLE (P.dateParse dateStr) endDate

/-- Function `getTotalRainfallForPeriod(startDate, endDate)`. -/
def getTotalRainfallForPeriod (P : Platform) (st : AppState) (startDate endDate : JSDate) :
    JSTotal :=
  (objKeys st.weatherData.rainfall).foldl
    (fun total dateStr =>
      if inPeriod P startDate endDate dateStr then
        P.plus total (objGet st.weatherData.rainfall dateStr)
      else total)
    (JSTotal.num 0)

/-- Function `getTotalWattForPeriod(startDate, endDate)`. -/
def getTotalWattForPeriod (P : Platform) (st : AppState) (startDate endDate : JSDate) :
    JSTotal :=
  (objKeys st.weatherData.watts).foldl
    (fun total dateStr =>
      if inPeriod P startDate endDate dateStr then
        P.plus total (objGet st.weatherData.watts dateStr)
      else total)
    (JSTotal.num 0)

/-! ## Export and import -/

/-- Function `exportData()`. -/
def exportData (P : Platform) (st : AppState) : AppState :=
  if P.dbReadOk then
    let dataToExport := getWeatherDataFromDB st
    let dataStr := P.jsonStringify dataToExport.toJS
    { st with downloads := st.downloads ++ [dataStr],
              localStorage := setItem st.localStorage "last_export_date" P.nowISO,
              notifications := st.notifications ++ [Notification.exportSuccess] }
  else
    { st with notifications := st.notifications ++ [Notification.exportError] }

/-- One merge of the import: `if (imported.name) { series = { ...series, ...imported.name } }`.
`none` when reading `imported.name` throws. -/
def importSeries (imported : JSValue) (name : String) (series : JSObject) : Option JSObject :=
  match getProp imported name with
  | some p =>
    if truthy p then some (spread2 (some (JSValue.obj series)) p) else some series
  | none => none

/-- The four merges of the import, in source order. A read of `imported.name`
throws only on `null`, hence at the first merge, before any assignment. -/
def importMerge (w : WeatherData) (imported : JSValue) : Option WeatherData :=
  match importSeries imported "rainfall" w.rainfall,
        importSeries imported "temperature" w.temperature,
        importSeries imported "comments" w.comments,
        importSeries imported "watts" w.watts with
  | some r, some t, some c, some x =>
    some { rainfall := r, temperature := t, comments := c, watts := x }
  | _, _, _, _ => none

/-- The `catch` branch of the import handler. -/
def importCatch (st : AppState) : AppState :=
  { st with notifications := st.notifications ++ [Notification.importError] }

/-- The `reader.onload` handler of `importData`, run on the text of the file. -/
def importOnLoad (P : Platform) (st : AppState) (text : String) : AppState :=
  match P.jsonParse text with
  | none => importCatch st
  | some imported =>
    if typeof imported ≠ "object" then importCatch st
    else
      match imported with
      | JSValue.null => importCatch st
      | _ =>
        match importMerge st.weatherData imported with
        | none => importCatch st
        | some w =>
          let st1 := saveData P { st with weatherData := w }
          if P.refreshOk then
            { st1 with notifications := st1.notifications ++ [Notification.importSuccess] }
          else importCatch st1

/-- The `reader.onerror` handler of `importData`. -/
def importOnError (st : AppState) : AppState :=
  { st with notifications := st.notifications ++ [Notification.fileReadError] }

/-! ## Period averages -/

/-- The result of the period query of the year view. -/
structure PeriodAverages where
  morningAvg : JSValue
  afternoonAvg : JSValue

/-- The number stored under `part` of a temperature entry, if there is one:
`null` and a missing property give `none`. -/
def reading (part : String) (entry : JSValue) : Option ℚ :=
  match entry with
  | JSValue.obj props =>
    match objGet props part with
    | some (JSValue.num q) => some q
    | _ => none
  | _ => none

/-- One step of the running sum and count of an average. -/
def accumulate (acc : ℚ × Nat) (x : Option ℚ) : ℚ × Nat :=
  match x with
  | some q => (acc.1 + q, acc.2 + 1)
  | none => acc

/-- The mean held by a running sum and count: `null` when nothing was counted. -/
def meanOf (acc : ℚ × Nat) : JSValue :=
  if acc.2 = 0 then JSValue.null else JSValue.num (acc.1 / acc.2)

/-- Modelled from the spec: `getTemperatureDataForPeriod(startDate, endDate)`,
which the year branch of `updateTemperatureCharts` calls and which
`storage.js` does not define. Following section 4.4, it takes the entries of
the temperature series whose date lies in the inclusive period, and returns
for the morning and for the afternoon, independently, the mean of the values
that are numbers, or `null` when there is none. -/
def getTemperatureDataForPeriod (P : Platform) (st : AppState) (startDate endDate : JSDate) :
    PeriodAverages :=
  let inside := st.weatherData.temperature.filter (fun p => inPeriod P startDate endDate p.1)
  { morningAvg :=
      meanOf (inside.foldl (fun acc p => accumulate acc (reading "morning" p.2)) (0, 0)),
    afternoonAvg :=
      meanOf (inside.foldl (fun acc p => accumulate acc (reading "afternoon" p.2)) (0, 0)) }

/-! ## A reference platform for examples -/

/-- The value of a decimal digit. -/
def digit (c : Char) : Option Int :=
  if c.isDigit then some (c.toNat - 48 : Int) else none

/-- Days from 1970-01-01 to the given civil date (proleptic Gregorian). -/
def daysFromCivil (y m d : Int) : Int :=
  let y1 := if m ≤ 2 then y - 1 else y
  let era := y1 / 400
  let yoe := y1 - era * 400
  let mp := (m + 9) % 12
  let doy := (153 * mp + 2) / 5 + d - 1
  let doe := yoe * 365 + yoe / 4 - yoe / 100 + doy
  era * 146097 + doe - 719468

/-- The number of days of month `m` of year `y`. -/
def daysInMonth (y m : Int) : Int :=
  if m = 2 then (if y % 4 = 0 ∧ (y % 100 ≠ 0 ∨ y % 400 = 0) then 29 else 28)
  else if m = 4 ∨ m = 6 ∨ m = 9 ∨ m = 11 then 30 else 31

/-- The ECMAScript date-only form `YYYY-MM-DD`, read as UTC midnight; every
other text is an invalid date here. -/
def isoDateParse (s : String) : Option Int :=
  match s.data with
  | [y1, y2, y3, y4, s1, m1, m2, s2, d1, d2] =>
    match digit y1, digit y2, digit y3, digit y4, digit m1, digit m2, digit d1, digit d2 with
    | some a, some b, some c, some e, some f, some g, some h, some i =>
      let y := a * 1000 + b * 100 + c * 10 + e
      let m := f * 10 + g
      let d := h * 10 + i
      if s1 = '-' ∧ s2 = '-' ∧ 1 ≤ m ∧ m ≤ 12 ∧ 1 ≤ d ∧ d ≤ daysInMonth y m then
        some (daysFromCivil y m d * 86400000)
      else none
    | _, _, _, _, _, _, _, _ => none
  | _ => none

/-- The addition of the reference platform: the exact sum of two numbers, which
is the sum of the engine whenever it is a double, as for the small integers of
the examples; `null` and `false` count as 0 and `true` as 1; every other case
is answered not-a-number and is not used by the examples. -/
def exactPlus : JSTotal → Option JSValue → JSTotal
  | JSTotal.num t, some (JSValue.num q) => JSTotal.num (t + q)
  | JSTotal.num t, some JSValue.null => JSTotal.num t
  | JSTotal.num t, some (JSValue.bool b) => JSTotal.num (if b then t + 1 else t)
  | _, _ => JSTotal.nan

/-- A platform on which every request succeeds, dates are ISO dates, numbers
add exactly, and the JSON functions know the single text `file` and the single
value `value`. -/
def referencePlatform (file : String) (value : JSValue) : Platform :=
  { jsonParse := fun s => if s = file then some value else none,
    jsonStringify := fun _ => file,
    dateParse := isoDateParse,
    plus := exactPlus,
    nowISO := "2024-03-01T08:00:00.000Z",
    dbReadOk := true,
    dbWriteOk := true,
    refreshOk := true }

/-- The state of a first run: nothing stored anywhere. -/
def initialState : AppState :=
  { weatherData := emptyWeatherData, db := none, localStorage := [],
    notifications := [], downloads := [] }

/-! ## Vocabulary of the statements -/

/-- An object that holds no key twice. -/
def NoDupKeys (o : JSObject) : Prop :=
  (objKeys o).Nodup

instance (o : JSObject) : Decidable (NoDupKeys o) :=
  inferInstanceAs (Decidable (objKeys o).Nodup)

/-- A record whose four series hold no key twice. -/
def WeatherData.WellFormed (w : WeatherData) : Prop :=
  NoDupKeys w.rainfall ∧ NoDupKeys w.temperature ∧ NoDupKeys w.comments ∧ NoDupKeys w.watts

instance (w : WeatherData) : Decidable w.WellFormed :=
  inferInstanceAs (Decidable (NoDupKeys w.rainfall ∧ NoDupKeys w.temperature ∧
    NoDupKeys w.comments ∧ NoDupKeys w.watts))

/-- The shallow merge of `S` and `L` in which `L` wins: `M` maps a key of `L`
to the value `L` gives it and every other key to what `S` gives it, its keys
are those of `S` and of `L`, and it holds none twice. -/
def IsMergeOf (M S L : JSObject) : Prop :=
  (∀ k, objGet M k = match objGet L k with
                     | some v => some v
                     | none => objGet S k) ∧
  (∀ k, k ∈ objKeys M ↔ k ∈ objKeys S ∨ k ∈ objKeys L) ∧
  NoDupKeys M

/-- A state whose record holds a comment for 2024-01-01 and for 2024-01-02. -/
def commentedState : AppState :=
  { initialState with
    weatherData := { emptyWeatherData with
      comments := [("2024-01-01", JSValue.str "orage"), ("2024-01-02", JSValue.str "beau")] } }

/-- A state whose record holds rain for three days, a comment and two power
readings. -/
def sampleState : AppState :=
  { initialState with
    weatherData :=
      { rainfall := [("2024-01-15", JSValue.num 3), ("2024-02-01", JSValue.num 100),
                     ("2024-01-01", JSValue.num 5)],
        temperature := [],
        comments := [("2024-01-02", JSValue.str "beau")],
        watts := [("2024-01-01", JSValue.num 120), ("2024-01-31", JSValue.num 80)] } }

/-- The sum of the values of the entries of `o` whose key, parsed as a date,
passes the test of the period: these values added to 0 one after the other,
in the order of the keys, by the addition of the engine. -/
def periodTotal (P : Platform) (o : JSObject) (startDate endDate : JSDate) : JSTotal :=
  (o.filter (fun p => inPeriod P startDate endDate p.1)).foldl
    (fun total p => P.plus total (some p.2)) (JSTotal.num 0)

/-- Adding the numbers `qs` one after the other to the running total `t`, the
engine never rounds: each of its sums is the exact one. -/
def ExactFrom (P : Platform) : ℚ → List ℚ → Prop
  | _, [] => True
  | t, q :: rest =>
    P.plus (JSTotal.num t) (some (JSValue.num q)) = JSTotal.num (t + q) ∧
    ExactFrom P (t + q) rest

/-- The entries of series `name` of a parsed record `v`, as a spread reads
them: nothing when `v` has no such property. -/
def seriesOf (v : JSValue) (name : String) : JSObject :=
  match getProp v name with
  | some p => ownEntries p
  | none => []

/-- A parsed record whose four series hold no key twice. -/
def PayloadWellFormed (v : JSValue) : Prop :=
  NoDupKeys (seriesOf v "rainfall") ∧ NoDupKeys (seriesOf v "temperature") ∧
  NoDupKeys (seriesOf v "comments") ∧ NoDupKeys (seriesOf v "watts")

instance (v : JSValue) : Decidable (PayloadWellFormed v) :=
  inferInstanceAs (Decidable (NoDupKeys (seriesOf v "rainfall") ∧
    NoDupKeys (seriesOf v "temperature") ∧ NoDupKeys (seriesOf v "comments") ∧
    NoDupKeys (seriesOf v "watts")))

/-- The store record `{rainfall: {"2024-01-01": 5}}`. -/
def storedRecord : WeatherData :=
  { emptyWeatherData with rainfall := [("2024-01-01", JSValue.num 5)] }

/-- The text of the legacy snapshot
`{"rainfall": {"2024-01-01": 10, "2024-01-02": 3}}`. -/
def legacyText : String :=
  "\x7b\"rainfall\": \x7b\"2024-01-01\": 10, \"2024-01-02\": 3\x7d\x7d"

/-- The value of `legacyText`. -/
def legacySnapshot : JSValue :=
  JSValue.obj [("rainfall",
    JSValue.obj [("2024-01-01", JSValue.num 10), ("2024-01-02", JSValue.num 3)])]

/-- A state to migrate: `storedRecord` in the store, `legacyText` under the
legacy key. -/
def legacyState : AppState :=
  { initialState with
    db := some storedRecord,
    localStorage := [(LEGACY_STORAGE_KEY, legacyText)] }

/-- A state whose legacy text is not JSON: `storedRecord` in the store. -/
def brokenLegacyState : AppState :=
  { initialState with
    db := some storedRecord,
    localStorage := [(LEGACY_STORAGE_KEY, "rainfall=10")] }

/-- The text of the import file
`{"rainfall": {"2024-01-01": 7, "2024-03-01": 1}, "station": "toit"}`. -/
def importText : String :=
  "\x7b\"rainfall\": \x7b\"2024-01-01\": 7, \"2024-03-01\": 1\x7d, \"station\": \"toit\"\x7d"

/-- The members of the value of `importText`. -/
def importMembers : JSObject :=
  [("rainfall", JSValue.obj [("2024-01-01", JSValue.num 7), ("2024-03-01", JSValue.num 1)]),
   ("station", JSValue.str "toit")]

/-- A state whose store holds the record in memory. -/
def savedState : AppState :=
  { sampleState with db := some sampleState.weatherData }

/-- The mean of a list of numbers, `null` for the empty list. -/
def meanOrNull (xs : List ℚ) : JSValue :=
  match xs with
  | [] => JSValue.null
  | x :: rest => JSValue.num ((x :: rest).sum / ((x :: rest).length : ℚ))

/-- The numbers stored under `part` in the temperature entries of the period. -/
def readingsInPeriod (P : Platform) (st : AppState) (startDate endDate : JSDate)
    (part : String) : List ℚ :=
  (st.weatherData.temperature.filter (fun p => inPeriod P startDate endDate p.1)).filterMap
    (fun p => reading part p.2)

/-- A state with the morning temperatures 10 and 20 in January 2024, no
afternoon value, and an entry of February. -/
def januaryMornings : AppState :=
  { initialState with
    weatherData := { emptyWeatherData with
      temperature :=
        [("2024-01-03", JSValue.obj [("morning", JSValue.num 10)]),
         ("2024-01-20", JSValue.obj [("morning", JSValue.num 20), ("afternoon", JSValue.null)]),
         ("2024-02-02", JSValue.obj [("morning", JSValue.num 4), ("afternoon", JSValue.num 9)])] } }

/-- What a date listing owes to the keys it lists: with `ascending` true the
list `up` is a rearrangement of `keys`, so it holds each key as often as
`keys` does (once, as an object holds no key twice) and nothing else, and it
is sorted in non-decreasing code unit order; the default list `down` is the
reverse of `up`, sorted in non-increasing order. -/
def IsDateListing (keys up down : List String) : Prop :=
  up.Perm keys ∧ (∀ k, k ∈ up ↔ k ∈ keys) ∧ (keys.Nodup → up.Nodup) ∧
  up.Sorted jsStringLE ∧
  down = up.reverse ∧ down.Sorted (fun a b => jsStringLE b a)

/-! ## Plain objects: reads after writes -/

theorem objGet_objSet_self (o : JSObject) (k : String) (v : JSValue) :
    objGet (objSet o k v) k = some v := by
  induction o with
  | nil => simp [objSet, objGet]
  | cons p rest ih =>
    obtain ⟨k', v'⟩ := p
    by_cases h : k' = k
    · simp [objSet, objGet, h]
    · simp [objSet, objGet, h, ih]

theorem objGet_objSet_other (o : JSObject) (k k' : String) (v : JSValue) (h : k' ≠ k) :
    objGet (objSet o k v) k' = objGet o k' := by
  induction o with
  | nil => simp [objSet, objGet, Ne.symm h]
  | cons p rest ih =>
    obtain ⟨k₀, v₀⟩ := p
    by_cases h₀ : k₀ = k
    · subst h₀
      simp [objSet, objGet, Ne.symm h]
    · by_cases h₁ : k₀ = k'
      · subst h₁
        simp [objSet, objGet, h₀]
      · simp [objSet, objGet, h₀, h₁, ih]

theorem objGet_eq_none_iff (o : JSObject) (k : String) :
    objGet o k = none ↔ k ∉ objKeys o := by
  induction o with
  | nil => simp [objGet, objKeys]
  | cons p rest ih =>
    obtain ⟨k', v'⟩ := p
    by_cases h : k' = k
    · simp [objGet, objKeys, h]
    · have ih' : objGet rest k = none ↔ k ∉ List.map Prod.fst rest := ih
      simp [objGet, objKeys, h, Ne.symm h, ih']

theorem mem_objKeys_iff (o : JSObject) (k : String) :
    k ∈ objKeys o ↔ ∃ v, objGet o k = some v := by
  rw [← not_iff_not, ← objGet_eq_none_iff]
  cases objGet o k <;> simp

theorem objGet_objDelete_self (o : JSObject) (k : String) :
    objGet (objDelete o k) k = none := by
  induction o with
  | nil => simp [objDelete, objGet]
  | cons p rest ih =>
    obtain ⟨k₀, v₀⟩ := p
    by_cases h₀ : k₀ = k
    · simp [objDelete, h₀, ih]
    · simp [objDelete, objGet, h₀, ih]

theorem objGet_objDelete_other (o : JSObject) (k k' : String) (h : k' ≠ k) :
    objGet (objDelete o k) k' = objGet o k' := by
  induction o with
  | nil => simp [objDelete, objGet]
  | cons p rest ih =>
    obtain ⟨k₀, v₀⟩ := p
    by_cases h₀ : k₀ = k
    · subst h₀
      simp [objDelete, objGet, Ne.symm h, ih]
    · by_cases h₁ : k₀ = k'
      · subst h₁
        simp [objDelete, objGet, h₀]
      · simp [objDelete, objGet, h₀, h₁, ih]

theorem getItem_removeItem_self (ls : List (String × String)) (k : String) :
    getItem (removeItem ls k) k = none := by
  induction ls with
  | nil => simp [removeItem, getItem]
  | cons p rest ih =>
    obtain ⟨k₀, v₀⟩ := p
    by_cases h₀ : k₀ = k
    · simp [removeItem, h₀, ih]
    · simp [removeItem, getItem, h₀, ih]

@[simp]
theorem saveData_weatherData (P : Platform) (st : AppState) :
    (saveData P st).weatherData = st.weatherData := by
  unfold saveData
  split <;> rfl

@[simp]
theorem update_weatherData (P : Platform) (st : AppState) (w : WeatherData) :
    (update P st w).weatherData = w := by
  simp [update]

/-! ## Accessors: what a read returns after a write -/

theorem getCommentForDate_blank (P : Platform) (st : AppState) (d c : String)
    (hc : jsTrim c = "") :
    getCommentForDate (setCommentForDate P st d c) d = JSValue.str "" := by
  simp [getCommentForDate, setCommentForDate, hc, objGet_objDelete_self, jsOr]

/-- C2 (as amended). After the setter of a series is called for a date `d`, the
getter of that series called for `d` returns the value set: for rainfall and
watts when the value is a number, for temperature the object
`{morning: m, afternoon: a}` for every `m` and `a`, and for comments when the
trimmed text is not empty. A comment whose trimmed text is empty is read back
as the empty string. -/
theorem set_then_get (P : Platform) (st : AppState) (d : String) :
    (∀ q : ℚ, getRainfallForDate (setRainfallForDate P st d (JSValue.num q)) d
        = JSValue.num q) ∧
    (∀ q : ℚ, getWattForDate (setWattForDate P st d (JSValue.num q)) d = JSValue.num q) ∧
    (∀ m a : JSValue, getTemperatureForDate (setTemperatureForDate P st d m a) d
        = JSValue.obj [("morning", m), ("afternoon", a)]) ∧
    (∀ c : String, jsTrim c ≠ "" →
        getCommentForDate (setCommentForDate P st d c) d = JSValue.str c) ∧
    (∀ c : String, jsTrim c = "" →
        getCommentForDate (setCommentForDate P st d c) d = JSValue.str "") := by
  refine ⟨?_, ?_, ?_, ?_, ?_⟩
  · intro q
    simp only [getRainfallForDate, setRainfallForDate, update_weatherData, objGet_objSet_self,
      jsOr, truthy]
    by_cases hq : q = 0 <;> simp [hq]
  · intro q
    simp only [getWattForDate, setWattForDate, update_weatherData, objGet_objSet_self,
      jsOr, truthy]
    by_cases hq : q = 0 <;> simp [hq]
  · intro m a
    simp [getTemperatureForDate, setTemperatureForDate, objGet_objSet_self, jsOr, truthy]
  · intro c hc
    have hne : c ≠ "" := by
      intro h0
      apply hc
      rw [h0]
      decide
    simp [getCommentForDate, setCommentForDate, hc, objGet_objSet_self, jsOr, truthy, hne]
  · intro c hc
    exact getCommentForDate_blank P st d c hc

/-- C2 on a first run: 5 mm of rain, 120 W, a temperature pair and the comment
"orage" are read back as set, and a comment of three spaces is read back
empty. -/
theorem set_then_get_witness :
    getRainfallForDate (setRainfallForDate (referencePlatform "" JSValue.null) initialState
      "2024-01-01" (JSValue.num 5)) "2024-01-01" = JSValue.num 5 ∧
    getWattForDate (setWattForDate (referencePlatform "" JSValue.null) initialState
      "2024-01-01" (JSValue.num 120)) "2024-01-01" = JSValue.num 120 ∧
    getTemperatureForDate (setTemperatureForDate (referencePlatform "" JSValue.null)
      initialState "2024-01-01" (JSValue.num 4) JSValue.null) "2024-01-01"
      = JSValue.obj [("morning", JSValue.num 4), ("afternoon", JSValue.null)] ∧
    getCommentForDate (setCommentForDate (referencePlatform "" JSValue.null) initialState
      "2024-01-01" "orage") "2024-01-01" = JSValue.str "orage" ∧
    getCommentForDate (setCommentForDate (referencePlatform "" JSValue.null) initialState
      "2024-01-01" "   ") "2024-01-01" = JSValue.str "" :=
  have h := set_then_get (referencePlatform "" JSValue.null) initialState "2024-01-01"
  ⟨h.1 5, h.2.1 120, h.2.2.1 (JSValue.num 4) JSValue.null, h.2.2.2.1 "orage" (by decide),
   h.2.2.2.2 "   " (by decide)⟩

/-- C2, the claim as stated fails: a comment made of three spaces is not read
back after it is set. -/
theorem set_then_get_comment_blank :
    ¬ (getCommentForDate
        (setCommentForDate (referencePlatform "" JSValue.null) initialState "2024-01-01" "   ")
        "2024-01-01" = JSValue.str "   ") := by
  intro h
  rw [getCommentForDate_blank _ _ _ _ (by decide)] at h
  injection h with h
  exact absurd h (by decide)

/-- C7. When the trimmed text is empty, `setCommentForDate(d, text)` leaves the
comments without key `d`, `getCommentForDate(d)` then returns the empty string,
and the comment of every other date is as before. -/
theorem setComment_blank_deletes (P : Platform) (st : AppState) (d text : String)
    (h : jsTrim text = "") :
    d ∉ objKeys (setCommentForDate P st d text).weatherData.comments ∧
    getCommentForDate (setCommentForDate P st d text) d = JSValue.str "" ∧
    (∀ k, k ≠ d →
      objGet (setCommentForDate P st d text).weatherData.comments k
        = objGet st.weatherData.comments k) ∧
    (∀ k, k ≠ d →
      (k ∈ objKeys (setCommentForDate P st d text).weatherData.comments
        ↔ k ∈ objKeys st.weatherData.comments)) := by
  have hc : (setCommentForDate P st d text).weatherData.comments
      = objDelete st.weatherData.comments d := by
    simp [setCommentForDate, h]
  refine ⟨?_, ?_, ?_, ?_⟩
  · rw [hc, ← objGet_eq_none_iff]
    exact objGet_objDelete_self _ _
  · simp [getCommentForDate, hc, objGet_objDelete_self, jsOr]
  · intro k hk
    rw [hc]
    exact objGet_objDelete_other _ _ _ hk
  · intro k hk
    rw [hc, mem_objKeys_iff, mem_objKeys_iff, objGet_objDelete_other _ _ _ hk]

/-- C7 at a stored comment: three spaces remove the comment of 2024-01-01 and
keep the one of 2024-01-02. -/
theorem setComment_blank_deletes_witness :
    jsTrim "   " = "" ∧
    "2024-01-01" ∈ objKeys commentedState.weatherData.comments ∧
    "2024-01-01" ∉ objKeys (setCommentForDate (referencePlatform "" JSValue.null)
        commentedState "2024-01-01" "   ").weatherData.comments ∧
    getCommentForDate (setCommentForDate (referencePlatform "" JSValue.null)
        commentedState "2024-01-01" "   ") "2024-01-01" = JSValue.str "" :=
  ⟨by decide, by decide,
   (setComment_blank_deletes (referencePlatform "" JSValue.null) commentedState
      "2024-01-01" "   " (by decide)).1,
   (setComment_blank_deletes (referencePlatform "" JSValue.null) commentedState
      "2024-01-01" "   " (by decide)).2.1⟩

/-! ## Date listings -/

theorem jsSort_perm (keys : List String) : (jsSort keys).Perm keys :=
  List.perm_insertionSort jsStringLE keys

theorem jsSort_sorted (keys : List String) : (jsSort keys).Sorted jsStringLE :=
  List.sorted_insertionSort jsStringLE keys

theorem jsSort_reverse_sorted (keys : List String) :
    (jsSort keys).reverse.Sorted (fun a b => jsStringLE b a) := by
  unfold List.Sorted
  rw [List.pairwise_reverse]
  exact jsSort_sorted keys

theorem isDateListing_jsSort (keys : List String) :
    IsDateListing keys (jsSort keys) (jsSort keys).reverse :=
  ⟨jsSort_perm keys, fun _ => (jsSort_perm keys).mem_iff,
   fun h => (jsSort_perm keys).nodup_iff.mpr h, jsSort_sorted keys, rfl,
   jsSort_reverse_sorted keys⟩

/-- C10. `getAllRainfallDates`, `getAllCommentDates` and `getAllWattDates`
called with `ascending` true return each key of their series once and nothing
else, sorted in non-decreasing lexicographic order; called with `ascending`
false, or without argument, they return the reverse of that list, sorted in
non-increasing order. -/
theorem date_listing_order (st : AppState) :
    (IsDateListing (objKeys st.weatherData.rainfall)
        (getAllRainfallDates st true) (getAllRainfallDates st false) ∧
      getAllRainfallDates st = getAllRainfallDates st false) ∧
    (IsDateListing (objKeys st.weatherData.comments)
        (getAllCommentDates st true) (getAllCommentDates st false) ∧
      getAllCommentDates st = getAllCommentDates st false) ∧
    (IsDateListing (objKeys st.weatherData.watts)
        (getAllWattDates st true) (getAllWattDates st false) ∧
      getAllWattDates st = getAllWattDates st false) :=
  ⟨⟨isDateListing_jsSort _, rfl⟩, ⟨isDateListing_jsSort _, rfl⟩, ⟨isDateListing_jsSort _, rfl⟩⟩

/-- C10 on a record with three days of rain: the ascending listing holds each
day once, oldest first, and the default listing is newest first. -/
theorem date_listing_order_witness :
    getAllRainfallDates sampleState true = ["2024-01-01", "2024-01-15", "2024-02-01"] ∧
    getAllRainfallDates sampleState = ["2024-02-01", "2024-01-15", "2024-01-01"] ∧
    (getAllRainfallDates sampleState true).Nodup ∧
    IsDateListing (objKeys sampleState.weatherData.rainfall)
      (getAllRainfallDates sampleState true) (getAllRainfallDates sampleState false) :=
  ⟨by decide, by decide,
   (date_listing_order sampleState).1.1.2.2.1 (by decide),
   (date_listing_order sampleState).1.1⟩

/-! ## Period sums -/

theorem objGet_of_mem (o : JSObject) (h : NoDupKeys o) (k : String) (v : JSValue)
    (hm : (k, v) ∈ o) : objGet o k = some v := by
  induction o with
  | nil => simp at hm
  | cons p rest ih =>
    obtain ⟨k₀, v₀⟩ := p
    have hnd : k₀ ∉ objKeys rest ∧ NoDupKeys rest := by
      simpa [NoDupKeys, objKeys] using h
    rcases List.mem_cons.mp hm with heq | hin
    · injection heq with h1 h2
      subst h1; subst h2
      simp [objGet]
    · have hk : k₀ ≠ k := by
        intro hk
        apply hnd.1
        rw [hk]
        exact List.mem_map.mpr ⟨(k, v), hin, rfl⟩
      simp [objGet, hk, ih hnd.2 hin]

theorem inPeriod_iff (P : Platform) (startDate endDate : JSDate) (k : String) :
    inPeriod P startDate endDate k = true ↔
      ∃ t a b, P.dateParse k = some t ∧ startDate = some a ∧ endDate = some b ∧
        a ≤ t ∧ t ≤ b := by
  unfold inPeriod dateGE dateLE
  cases P.dateParse k <;> cases startDate <;> cases endDate <;> simp

theorem foldl_total (P : Platform) (o : JSObject) (startDate endDate : JSDate)
    (l : JSObject) (hget : ∀ p ∈ l, objGet o p.1 = some p.2) (t : JSTotal) :
    (objKeys l).foldl
        (fun total dateStr =>
          if inPeriod P startDate endDate dateStr then P.plus total (objGet o dateStr)
          else total)
        t
      = (l.filter (fun p => inPeriod P startDate endDate p.1)).foldl
          (fun total p => P.plus total (some p.2)) t := by
  induction l generalizing t with
  | nil => simp [objKeys]
  | cons p rest ih =>
    obtain ⟨k₀, v₀⟩ := p
    have hrest := ih (fun p hp => hget p (List.mem_cons_of_mem _ hp))
    have h0 : objGet o k₀ = some v₀ := hget (k₀, v₀) (List.mem_cons_self _ _)
    simp only [objKeys, List.map_cons, List.foldl_cons] at hrest ⊢
    by_cases hin : inPeriod P startDate endDate k₀ = true
    · rw [if_pos hin, h0, hrest]
      simp [List.filter, hin]
    · rw [if_neg hin, hrest]
      simp [List.filter, hin]

theorem total_eq_periodTotal (P : Platform) (o : JSObject) (startDate endDate : JSDate)
    (h : NoDupKeys o) :
    (objKeys o).foldl
        (fun total dateStr =>
          if inPeriod P startDate endDate dateStr then P.plus total (objGet o dateStr)
          else total)
        (JSTotal.num 0)
      = periodTotal P o startDate endDate :=
  foldl_total P o startDate endDate o (fun p hp => objGet_of_mem o h p.1 p.2 hp) (JSTotal.num 0)

theorem periodTotal_of_none (P : Platform) (o : JSObject) (startDate endDate : JSDate)
    (h : ∀ p ∈ o, inPeriod P startDate endDate p.1 = false) :
    periodTotal P o startDate endDate = JSTotal.num 0 := by
  have : o.filter (fun p => inPeriod P startDate endDate p.1) = [] :=
    List.filter_eq_nil_iff.mpr (fun p hp => by simp [h p hp])
  simp [periodTotal, this]

theorem foldl_plus_exact (P : Platform) (qs : List ℚ) (t : ℚ) (h : ExactFrom P t qs) :
    (qs.map JSValue.num).foldl (fun total v => P.plus total (some v)) (JSTotal.num t)
      = JSTotal.num (t + qs.sum) := by
  induction qs generalizing t with
  | nil => simp
  | cons q rest ih =>
    obtain ⟨h1, h2⟩ := h
    simp only [List.map_cons, List.foldl_cons, List.sum_cons]
    rw [h1, ih (t + q) h2, add_assoc]

theorem periodTotal_of_exact (P : Platform) (o : JSObject) (startDate endDate : JSDate)
    (qs : List ℚ)
    (hsel : (o.filter (fun p => inPeriod P startDate endDate p.1)).map Prod.snd
      = qs.map JSValue.num)
    (hex : ExactFrom P 0 qs) :
    periodTotal P o startDate endDate = JSTotal.num qs.sum := by
  have hmap : ∀ (l : JSObject) (t : JSTotal),
      l.foldl (fun total p => P.plus total (some p.2)) t
        = (l.map Prod.snd).foldl (fun total v => P.plus total (some v)) t := by
    intro l
    induction l with
    | nil => intro t; rfl
    | cons p rest ih => intro t; simp only [List.foldl_cons, List.map_cons, ih]
  unfold periodTotal
  rw [hmap, hsel, foldl_plus_exact P qs 0 hex, zero_add]

/-- C3. `getTotalRainfallForPeriod(start, end)` and
`getTotalWattForPeriod(start, end)` return the sum of the values of exactly
the entries whose key, parsed as a date, lies between `start` and `end`
inclusive: these values added to 0 in the order of the keys by the addition of
the engine. The other entries add nothing, the sum is 0 when no entry is
selected, and it is the exact sum of the selected numbers when no addition on
the way rounds. -/
theorem period_sum (P : Platform) (st : AppState) (startDate endDate : JSDate) :
    (NoDupKeys st.weatherData.rainfall →
      getTotalRainfallForPeriod P st startDate endDate
        = periodTotal P st.weatherData.rainfall startDate endDate) ∧
    (NoDupKeys st.weatherData.watts →
      getTotalWattForPeriod P st startDate endDate
        = periodTotal P st.weatherData.watts startDate endDate) ∧
    (∀ k, inPeriod P startDate endDate k = true ↔
      ∃ t a b, P.dateParse k = some t ∧ startDate = some a ∧ endDate = some b ∧
        a ≤ t ∧ t ≤ b) ∧
    (∀ (o : JSObject) (k : String) (v : JSValue), inPeriod P startDate endDate k = false →
      periodTotal P ((k, v) :: o) startDate endDate = periodTotal P o startDate endDate) ∧
    (∀ o : JSObject, (∀ p ∈ o, inPeriod P startDate endDate p.1 = false) →
      periodTotal P o startDate endDate = JSTotal.num 0) ∧
    (∀ (o : JSObject) (qs : List ℚ),
      (o.filter (fun p => inPeriod P startDate endDate p.1)).map Prod.snd
        = qs.map JSValue.num →
      ExactFrom P 0 qs →
      periodTotal P o startDate endDate = JSTotal.num qs.sum) :=
  ⟨total_eq_periodTotal P st.weatherData.rainfall startDate endDate,
   total_eq_periodTotal P st.weatherData.watts startDate endDate,
   inPeriod_iff P startDate endDate,
   fun o k v h => by simp [periodTotal, List.filter, h],
   fun o => periodTotal_of_none P o startDate endDate,
   fun o qs => periodTotal_of_exact P o startDate endDate qs⟩

/-- C3 on the rain of 2024-01-01 (5), 2024-01-15 (3) and 2024-02-01 (100): the
total for January 2024 is 8. -/
theorem period_sum_witness :
    NoDupKeys sampleState.weatherData.rainfall ∧
    ExactFrom (referencePlatform "" JSValue.null) 0 [3, 5] ∧
    getTotalRainfallForPeriod (referencePlatform "" JSValue.null) sampleState
      (isoDateParse "2024-01-01") (isoDateParse "2024-01-31") = JSTotal.num 8 := by
  have hex : ExactFrom (referencePlatform "" JSValue.null) 0 [3, 5] := ⟨rfl, rfl, trivial⟩
  have h := period_sum (referencePlatform "" JSValue.null) sampleState
    (isoDateParse "2024-01-01") (isoDateParse "2024-01-31")
  have h1 : inPeriod (referencePlatform "" JSValue.null) (isoDateParse "2024-01-01")
      (isoDateParse "2024-01-31") "2024-01-15" = true := by decide
  have h2 : inPeriod (referencePlatform "" JSValue.null) (isoDateParse "2024-01-01")
      (isoDateParse "2024-01-31") "2024-02-01" = false := by decide
  have h3 : inPeriod (referencePlatform "" JSValue.null) (isoDateParse "2024-01-01")
      (isoDateParse "2024-01-31") "2024-01-01" = true := by decide
  refine ⟨by decide, hex, ?_⟩
  rw [h.1 (by decide), h.2.2.2.2.2 sampleState.weatherData.rainfall [3, 5]
    (by simp [sampleState, List.filter, h1, h2, h3]) hex]
  norm_num

/-! ## Spreads -/

theorem objKeys_objSet (o : JSObject) (k : String) (v : JSValue) :
    objKeys (objSet o k v) = if k ∈ objKeys o then objKeys o else objKeys o ++ [k] := by
  induction o with
  | nil => simp [objSet, objKeys]
  | cons p rest ih =>
    obtain ⟨k₀, v₀⟩ := p
    simp only [objKeys] at ih ⊢
    by_cases h₀ : k₀ = k
    · subst h₀
      simp [objSet]
    · have hne : ¬ k = k₀ := fun h => h₀ h.symm
      by_cases hmem : k ∈ List.map Prod.fst rest
      · simp [objSet, h₀, hne, ih, hmem]
      · simp [objSet, h₀, hne, ih, hmem]

theorem noDupKeys_objSet (o : JSObject) (k : String) (v : JSValue) (h : NoDupKeys o) :
    NoDupKeys (objSet o k v) := by
  unfold NoDupKeys at h ⊢
  rw [objKeys_objSet]
  by_cases hmem : k ∈ objKeys o
  · simpa [hmem] using h
  · simp only [hmem, if_false]
    exact List.Nodup.append h (List.nodup_singleton k)
      (by simpa [List.disjoint_singleton] using hmem)

theorem objSet_of_not_mem (o : JSObject) (k : String) (v : JSValue) (h : k ∉ objKeys o) :
    objSet o k v = o ++ [(k, v)] := by
  induction o with
  | nil => simp [objSet]
  | cons p rest ih =>
    obtain ⟨k₀, v₀⟩ := p
    have h1 : k₀ ≠ k ∧ k ∉ objKeys rest := by
      simp only [objKeys, List.map_cons, List.mem_cons, not_or] at h
      exact ⟨fun e => h.1 e.symm, h.2⟩
    simp [objSet, h1.1, ih h1.2]

theorem objSet_of_objGet (o : JSObject) (k : String) (v : JSValue)
    (h : objGet o k = some v) : objSet o k v = o := by
  induction o with
  | nil => simp [objGet] at h
  | cons p rest ih =>
    obtain ⟨k₀, v₀⟩ := p
    by_cases h₀ : k₀ = k
    · subst h₀
      simp only [objGet, if_true, Option.some.injEq] at h
      simp [objSet, h]
    · simp only [objGet, h₀, if_false] at h
      simp [objSet, h₀, ih h]

theorem noDupKeys_foldl_objSet (es target : JSObject) (h : NoDupKeys target) :
    NoDupKeys (es.foldl (fun o p => objSet o p.1 p.2) target) := by
  induction es generalizing target with
  | nil => simpa using h
  | cons p rest ih => exact ih _ (noDupKeys_objSet target p.1 p.2 h)

theorem objGet_foldl_objSet (es target : JSObject) (h : NoDupKeys es) (k : String) :
    objGet (es.foldl (fun o p => objSet o p.1 p.2) target) k
      = match objGet es k with
        | some v => some v
        | none => objGet target k := by
  induction es generalizing target with
  | nil => simp [objGet]
  | cons p rest ih =>
    obtain ⟨k₀, v₀⟩ := p
    have hnd : k₀ ∉ objKeys rest ∧ NoDupKeys rest := by
      simpa [NoDupKeys, objKeys] using h
    simp only [List.foldl_cons]
    rw [ih _ hnd.2]
    by_cases h₀ : k₀ = k
    · subst h₀
      have hnone : objGet rest k₀ = none := (objGet_eq_none_iff rest k₀).mpr hnd.1
      simp [objGet, hnone, objGet_objSet_self]
    · have hk : k ≠ k₀ := fun e => h₀ e.symm
      simp only [objGet, h₀, if_false, objGet_objSet_other target k₀ k v₀ hk]

theorem foldl_objSet_append (es target : JSObject) (h : NoDupKeys es)
    (hd : ∀ k ∈ objKeys es, k ∉ objKeys target) :
    es.foldl (fun o p => objSet o p.1 p.2) target = target ++ es := by
  induction es generalizing target with
  | nil => simp
  | cons p rest ih =>
    obtain ⟨k₀, v₀⟩ := p
    have hnd : k₀ ∉ objKeys rest ∧ NoDupKeys rest := by
      simpa [NoDupKeys, objKeys] using h
    have hk₀ : k₀ ∉ objKeys target := hd k₀ (by simp [objKeys])
    simp only [List.foldl_cons]
    rw [objSet_of_not_mem target k₀ v₀ hk₀, ih _ hnd.2]
    · simp
    · intro k hk
      have hkt : k ∉ objKeys target := hd k (by
        simp only [objKeys, List.map_cons, List.mem_cons]
        exact Or.inr hk)
      have hne : k ≠ k₀ := fun e => hnd.1 (e ▸ hk)
      simp only [objKeys, List.map_append, List.map_cons, List.map_nil, List.mem_append,
        List.mem_singleton, not_or]
      exact ⟨hkt, hne⟩

theorem foldl_objSet_same (es target : JSObject)
    (h : ∀ p ∈ es, objGet target p.1 = some p.2) :
    es.foldl (fun o p => objSet o p.1 p.2) target = target := by
  induction es with
  | nil => simp
  | cons p rest ih =>
    simp only [List.foldl_cons]
    rw [objSet_of_objGet target p.1 p.2 (h p (List.mem_cons_self _ _))]
    exact ih (fun q hq => h q (List.mem_cons_of_mem _ hq))

theorem spreadInto_nil_obj (a : JSObject) (h : NoDupKeys a) :
    spreadInto [] (some (JSValue.obj a)) = a := by
  unfold spreadInto ownEntries
  rw [foldl_objSet_append a [] h (by simp [objKeys])]
  simp

theorem spread2_self (a : JSObject) (h : NoDupKeys a) :
    spread2 (some (JSValue.obj a)) (some (JSValue.obj a)) = a := by
  unfold spread2
  rw [spreadInto_nil_obj a h]
  unfold spreadInto ownEntries
  exact foldl_objSet_same a a (fun p hp => objGet_of_mem a h p.1 p.2 hp)

theorem isMergeOf_spread2 (S : JSObject) (L : Option JSValue) (hS : NoDupKeys S)
    (hL : NoDupKeys (ownEntries L)) :
    IsMergeOf (spread2 (some (JSValue.obj S)) L) S (ownEntries L) := by
  have hget : ∀ k, objGet (spread2 (some (JSValue.obj S)) L) k
      = match objGet (ownEntries L) k with
        | some v => some v
        | none => objGet S k := by
    intro k
    unfold spread2
    rw [spreadInto_nil_obj S hS]
    exact objGet_foldl_objSet (ownEntries L) S hL k
  refine ⟨hget, ?_, ?_⟩
  · intro k
    rw [mem_objKeys_iff, mem_objKeys_iff, mem_objKeys_iff, hget k]
    cases h1 : objGet (ownEntries L) k <;> simp
  · unfold spread2
    rw [spreadInto_nil_obj S hS]
    exact noDupKeys_foldl_objSet (ownEntries L) S hS

theorem isMergeOf_nil (S : JSObject) (hS : NoDupKeys S) : IsMergeOf S S [] :=
  ⟨fun k => by simp [objGet], fun k => by simp [objKeys], hS⟩

/-! ## Migration -/

theorem getProp_of_ne_null (v : JSValue) (name : String) (h : v ≠ JSValue.null) :
    ∃ p, getProp v name = some p ∧ seriesOf v name = ownEntries p := by
  cases v with
  | null => exact absurd rfl h
  | bool b => exact ⟨none, rfl, rfl⟩
  | num q => exact ⟨none, rfl, rfl⟩
  | str x => exact ⟨none, rfl, rfl⟩
  | arr x => exact ⟨none, rfl, rfl⟩
  | obj props => exact ⟨objGet props name, rfl, rfl⟩

theorem loadData_of_merge (P : Platform) (st : AppState) (raw : String)
    (legacy : JSValue) (M : WeatherData)
    (hread : P.dbReadOk = true) (hwrite : P.dbWriteOk = true)
    (hraw : getItem st.localStorage LEGACY_STORAGE_KEY = some raw) (hne : raw ≠ "")
    (hparse : P.jsonParse raw = some legacy)
    (hmerge : mergeLegacy (getWeatherDataFromDB st) legacy = some M) :
    loadData P st = { st with weatherData := M, db := some M,
                              localStorage := removeItem st.localStorage LEGACY_STORAGE_KEY } := by
  simp [loadData, hread, hraw, hne, hparse, hmerge, hwrite]

theorem loadData_of_failure (P : Platform) (st : AppState) (raw : String)
    (hread : P.dbReadOk = true)
    (hraw : getItem st.localStorage LEGACY_STORAGE_KEY = some raw) (hne : raw ≠ "")
    (hfail : P.jsonParse raw = none ∨ P.dbWriteOk = false) :
    loadData P st = { st with weatherData := emptyWeatherData } := by
  simp only [loadData, hread, hraw, hne, if_true, ne_eq, not_false_eq_true]
  cases hp : P.jsonParse raw with
  | none => simp [loadDataCatch]
  | some legacy =>
    have hw : P.dbWriteOk = false := by
      rcases hfail with h | h
      · rw [hp] at h; cases h
      · exact h
    cases hm : mergeLegacy (getWeatherDataFromDB st) legacy with
    | none => simp [hm, loadDataCatch]
    | some M => simp [hm, hw, loadDataCatch]

/-- C1. When the store is read and written without failure and the legacy text
parses to a record `legacy`, `loadData` leaves in memory, and writes to the
store, a record in which each of the four series maps a key of the legacy
series to the legacy value and every other key to the value of the store
record `S`, with the keys of both; the legacy key is then absent from
`localStorage`. -/
theorem migration_merge (P : Platform) (st : AppState) (S : WeatherData) (raw : String)
    (legacy : JSValue)
    (hread : P.dbReadOk = true) (hwrite : P.dbWriteOk = true)
    (hS : st.db = some S) (hSwf : S.WellFormed)
    (hraw : getItem st.localStorage LEGACY_STORAGE_KEY = some raw) (hne : raw ≠ "")
    (hparse : P.jsonParse raw = some legacy) (hnn : legacy ≠ JSValue.null)
    (hL : PayloadWellFormed legacy) :
    IsMergeOf (loadData P st).weatherData.rainfall S.rainfall (seriesOf legacy "rainfall") ∧
    IsMergeOf (loadData P st).weatherData.temperature S.temperature
      (seriesOf legacy "temperature") ∧
    IsMergeOf (loadData P st).weatherData.comments S.comments (seriesOf legacy "comments") ∧
    IsMergeOf (loadData P st).weatherData.watts S.watts (seriesOf legacy "watts") ∧
    (loadData P st).db = some (loadData P st).weatherData ∧
    getItem (loadData P st).localStorage LEGACY_STORAGE_KEY = none := by
  obtain ⟨r, hr, hr'⟩ := getProp_of_ne_null legacy "rainfall" hnn
  obtain ⟨t, ht, ht'⟩ := getProp_of_ne_null legacy "temperature" hnn
  obtain ⟨c, hc, hc'⟩ := getProp_of_ne_null legacy "comments" hnn
  obtain ⟨w, hw, hw'⟩ := getProp_of_ne_null legacy "watts" hnn
  have hdb : getWeatherDataFromDB st = S := by simp [getWeatherDataFromDB, hS]
  have hmerge : mergeLegacy (getWeatherDataFromDB st) legacy
      = some { rainfall := spread2 (some (JSValue.obj S.rainfall)) r,
               temperature := spread2 (some (JSValue.obj S.temperature)) t,
               comments := spread2 (some (JSValue.obj S.comments)) c,
               watts := spread2 (some (JSValue.obj S.watts)) w } := by
    simp [mergeLegacy, hr, ht, hc, hw, hdb]
  rw [loadData_of_merge P st raw legacy _ hread hwrite hraw hne hparse hmerge]
  obtain ⟨h1, h2, h3, h4⟩ := hL
  rw [hr'] at h1 ⊢
  rw [ht'] at h2 ⊢
  rw [hc'] at h3 ⊢
  rw [hw'] at h4 ⊢
  exact ⟨isMergeOf_spread2 _ r hSwf.1 h1, isMergeOf_spread2 _ t hSwf.2.1 h2,
    isMergeOf_spread2 _ c hSwf.2.2.1 h3, isMergeOf_spread2 _ w hSwf.2.2.2 h4, rfl,
    getItem_removeItem_self _ _⟩

/-- C1 on the store record `{rainfall: {"2024-01-01": 5}}` and the legacy
snapshot `{rainfall: {"2024-01-01": 10, "2024-01-02": 3}}`: the rainfall in
memory and in the store is `{"2024-01-01": 10, "2024-01-02": 3}` and the
legacy key is gone. -/
theorem migration_merge_witness :
    (loadData (referencePlatform legacyText legacySnapshot) legacyState).weatherData.rainfall
      = [("2024-01-01", JSValue.num 10), ("2024-01-02", JSValue.num 3)] ∧
    IsMergeOf
      (loadData (referencePlatform legacyText legacySnapshot) legacyState).weatherData.rainfall
      storedRecord.rainfall (seriesOf legacySnapshot "rainfall") ∧
    (loadData (referencePlatform legacyText legacySnapshot) legacyState).db
      = some (loadData (referencePlatform legacyText legacySnapshot) legacyState).weatherData ∧
    getItem (loadData (referencePlatform legacyText legacySnapshot) legacyState).localStorage
      LEGACY_STORAGE_KEY = none :=
  have h := migration_merge (referencePlatform legacyText legacySnapshot) legacyState
    storedRecord legacyText legacySnapshot rfl rfl rfl (by decide) (by decide) (by decide)
    (by simp [referencePlatform]) (by simp [legacySnapshot]) (by decide)
  ⟨by rfl, h.1, h.2.2.2.2.1, h.2.2.2.2.2⟩

/-- C5 (as amended). When the store was read and a later step of the migration
fails, because the legacy text does not parse or because the write of the
merged record is rejected, `loadData` leaves in memory the empty record; the
store keeps the record it held and `localStorage` keeps the legacy key. -/
theorem migration_failure (P : Platform) (st : AppState) (raw : String)
    (hread : P.dbReadOk = true)
    (hraw : getItem st.localStorage LEGACY_STORAGE_KEY = some raw) (hne : raw ≠ "")
    (hfail : P.jsonParse raw = none ∨ P.dbWriteOk = false) :
    (loadData P st).weatherData = emptyWeatherData ∧
    (loadData P st).db = st.db ∧
    (loadData P st).localStorage = st.localStorage ∧
    getItem (loadData P st).localStorage LEGACY_STORAGE_KEY = some raw := by
  rw [loadData_of_failure P st raw hread hraw hne hfail]
  exact ⟨rfl, rfl, rfl, hraw⟩

/-- C5 where the legacy text is not JSON: the store keeps `storedRecord`, the
record in memory is empty. -/
theorem migration_failure_witness :
    (loadData (referencePlatform legacyText legacySnapshot) brokenLegacyState).weatherData
      = emptyWeatherData ∧
    (loadData (referencePlatform legacyText legacySnapshot) brokenLegacyState).db
      = some storedRecord :=
  have h := migration_failure (referencePlatform legacyText legacySnapshot) brokenLegacyState
    "rainfall=10" rfl (by decide) (by decide) (Or.inl (by simp [referencePlatform, legacyText]))
  ⟨h.1, h.2.1⟩

/-- C5, the claim as stated fails: the store holds `storedRecord`, the legacy
text does not parse, and after `loadData` the record in memory is not
`storedRecord`. -/
theorem migration_failure_drops_record :
    (loadData (referencePlatform legacyText legacySnapshot) brokenLegacyState).db
      = some storedRecord ∧
    (referencePlatform legacyText legacySnapshot).jsonParse "rainfall=10" = none ∧
    ¬ ((loadData (referencePlatform legacyText legacySnapshot) brokenLegacyState).weatherData
        = storedRecord) := by
  have hfail : (referencePlatform legacyText legacySnapshot).jsonParse "rainfall=10" = none := by
    simp [referencePlatform, legacyText]
  have hload := loadData_of_failure (referencePlatform legacyText legacySnapshot)
    brokenLegacyState "rainfall=10" rfl (by decide) (by decide) (Or.inl hfail)
  refine ⟨by rw [hload]; rfl, hfail, ?_⟩
  intro h
  rw [hload] at h
  have h2 := congrArg WeatherData.rainfall h
  simp [emptyWeatherData, storedRecord] at h2

/-! ## Import and export -/

theorem ownEntries_of_falsy (p : Option JSValue) (h : truthy p = false) :
    ownEntries p = [] := by
  cases p with
  | none => rfl
  | some v =>
    cases v with
    | null => rfl
    | bool b => rfl
    | num q => rfl
    | str x =>
      have hx : x = "" := by simpa [truthy] using h
      subst hx
      rfl
    | arr x => simp [truthy] at h
    | obj x => simp [truthy] at h

theorem importSeries_obj (I : JSObject) (name : String) (series : JSObject) :
    importSeries (JSValue.obj I) name series
      = some (if truthy (objGet I name) then
                spread2 (some (JSValue.obj series)) (objGet I name)
              else series) := by
  unfold importSeries getProp
  by_cases h : truthy (objGet I name) = true <;> simp [h]

theorem importOnLoad_obj (P : Platform) (st : AppState) (text : String) (I : JSObject)
    (hparse : P.jsonParse text = some (JSValue.obj I)) :
    (importOnLoad P st text).weatherData
      = { rainfall := if truthy (objGet I "rainfall") then
            spread2 (some (JSValue.obj st.weatherData.rainfall)) (objGet I "rainfall")
            else st.weatherData.rainfall,
          temperature := if truthy (objGet I "temperature") then
            spread2 (some (JSValue.obj st.weatherData.temperature)) (objGet I "temperature")
            else st.weatherData.temperature,
          comments := if truthy (objGet I "comments") then
            spread2 (some (JSValue.obj st.weatherData.comments)) (objGet I "comments")
            else st.weatherData.comments,
          watts := if truthy (objGet I "watts") then
            spread2 (some (JSValue.obj st.weatherData.watts)) (objGet I "watts")
            else st.weatherData.watts } := by
  simp only [importOnLoad, hparse, typeof, importMerge, importSeries_obj]
  by_cases hr : P.refreshOk = true <;> simp [hr, importCatch]

theorem isMergeOf_import (series : JSObject) (p : Option JSValue) (hs : NoDupKeys series)
    (hp : NoDupKeys (ownEntries p)) :
    IsMergeOf (if truthy p then spread2 (some (JSValue.obj series)) p else series)
      series (ownEntries p) := by
  by_cases h : truthy p = true
  · simp only [h, if_true]
    exact isMergeOf_spread2 series p hs hp
  · have hf : truthy p = false := by simpa using h
    rw [hf, ownEntries_of_falsy p hf]
    exact isMergeOf_nil series hs

theorem import_absent (series : JSObject) :
    (if truthy none then spread2 (some (JSValue.obj series)) none else series) = series := by
  simp [truthy]

/-- C6. When the file parses to a JSON object `I`, the import leaves each
series of the record equal to the shallow merge of the former series with the
series of `I` of that name, in which the value of `I` wins on a key of both
and a key of one side keeps its value; a series that `I` does not contain is
unchanged; and the record that results depends on `I` through the four
properties rainfall, temperature, comments and watts only. -/
theorem import_merge (P : Platform) (st : AppState) (text : String) (I : JSObject)
    (hparse : P.jsonParse text = some (JSValue.obj I))
    (hwf : st.weatherData.WellFormed) (hI : PayloadWellFormed (JSValue.obj I)) :
    (IsMergeOf (importOnLoad P st text).weatherData.rainfall st.weatherData.rainfall
        (seriesOf (JSValue.obj I) "rainfall") ∧
      (objGet I "rainfall" = none →
        (importOnLoad P st text).weatherData.rainfall = st.weatherData.rainfall)) ∧
    (IsMergeOf (importOnLoad P st text).weatherData.temperature st.weatherData.temperature
        (seriesOf (JSValue.obj I) "temperature") ∧
      (objGet I "temperature" = none →
        (importOnLoad P st text).weatherData.temperature = st.weatherData.temperature)) ∧
    (IsMergeOf (importOnLoad P st text).weatherData.comments st.weatherData.comments
        (seriesOf (JSValue.obj I) "comments") ∧
      (objGet I "comments" = none →
        (importOnLoad P st text).weatherData.comments = st.weatherData.comments)) ∧
    (IsMergeOf (importOnLoad P st text).weatherData.watts st.weatherData.watts
        (seriesOf (JSValue.obj I) "watts") ∧
      (objGet I "watts" = none →
        (importOnLoad P st text).weatherData.watts = st.weatherData.watts)) ∧
    (∀ (text' : String) (I' : JSObject), P.jsonParse text' = some (JSValue.obj I') →
      objGet I' "rainfall" = objGet I "rainfall" →
      objGet I' "temperature" = objGet I "temperature" →
      objGet I' "comments" = objGet I "comments" →
      objGet I' "watts" = objGet I "watts" →
      (importOnLoad P st text').weatherData = (importOnLoad P st text).weatherData) := by
  rw [importOnLoad_obj P st text I hparse]
  refine ⟨⟨isMergeOf_import _ _ hwf.1 hI.1, ?_⟩, ⟨isMergeOf_import _ _ hwf.2.1 hI.2.1, ?_⟩,
    ⟨isMergeOf_import _ _ hwf.2.2.1 hI.2.2.1, ?_⟩,
    ⟨isMergeOf_import _ _ hwf.2.2.2 hI.2.2.2, ?_⟩, ?_⟩
  · intro h; simp [h, truthy]
  · intro h; simp [h, truthy]
  · intro h; simp [h, truthy]
  · intro h; simp [h, truthy]
  · intro text' I' hparse' h1 h2 h3 h4
    rw [importOnLoad_obj P st text' I' hparse', h1, h2, h3, h4]

/-- C6 on three days of rain and a file that brings a new value for
2024-01-01, a new day, and an unknown key: the new value wins, the new day is
added, the other days and the other series are as before. -/
theorem import_merge_witness :
    objGet (importOnLoad (referencePlatform importText (JSValue.obj importMembers))
        sampleState importText).weatherData.rainfall "2024-01-01" = some (JSValue.num 7) ∧
    objGet (importOnLoad (referencePlatform importText (JSValue.obj importMembers))
        sampleState importText).weatherData.rainfall "2024-03-01" = some (JSValue.num 1) ∧
    objGet (importOnLoad (referencePlatform importText (JSValue.obj importMembers))
        sampleState importText).weatherData.rainfall "2024-01-15" = some (JSValue.num 3) ∧
    (importOnLoad (referencePlatform importText (JSValue.obj importMembers))
        sampleState importText).weatherData.watts = sampleState.weatherData.watts :=
  have h := import_merge (referencePlatform importText (JSValue.obj importMembers))
    sampleState importText importMembers (by simp [referencePlatform]) (by decide) (by decide)
  ⟨(h.1.1.1 "2024-01-01").trans rfl, (h.1.1.1 "2024-03-01").trans rfl,
   (h.1.1.1 "2024-01-15").trans rfl, h.2.2.2.1.2 rfl⟩

/-- What the import handler does with a text that is not JSON, or that parses
to `null`, a boolean, a number or a string: the state is as before but for one
more error notification. -/
theorem importOnLoad_rejects (P : Platform) (st : AppState) (text : String)
    (h : P.jsonParse text = none ∨ P.jsonParse text = some JSValue.null ∨
      (∃ b, P.jsonParse text = some (JSValue.bool b)) ∨
      (∃ q, P.jsonParse text = some (JSValue.num q)) ∨
      (∃ x, P.jsonParse text = some (JSValue.str x))) :
    importOnLoad P st text
      = { st with notifications := st.notifications ++ [Notification.importError] } := by
  rcases h with h | h | ⟨b, h⟩ | ⟨q, h⟩ | ⟨x, h⟩ <;>
    simp [importOnLoad, h, typeof, importCatch]

/-- What the import handler does with a text that parses to an array, when the
presentation refresh returns: the record in memory is as before and the last
notification is the success notification. -/
theorem importOnLoad_array (P : Platform) (st : AppState) (text : String)
    (items : List JSValue) (h : P.jsonParse text = some (JSValue.arr items))
    (hr : P.refreshOk = true) :
    (importOnLoad P st text).weatherData = st.weatherData ∧
    (importOnLoad P st text).notifications
      = (saveData P st).notifications ++ [Notification.importSuccess] := by
  simp [importOnLoad, h, typeof, importMerge, importSeries, getProp, truthy, hr]

/-- C4, the code at the failing input: a file whose text is `[]` parses to an
array, passes the test `typeof imported !== "object" || imported === null`,
merges nothing, and the handler shows the success notification and no error
notification. -/
theorem import_array_reports_success :
    (referencePlatform "[]" (JSValue.arr [])).jsonParse "[]" = some (JSValue.arr []) ∧
    (importOnLoad (referencePlatform "[]" (JSValue.arr [])) sampleState "[]").notifications
      = [Notification.importSuccess] ∧
    Notification.importError ∉
      (importOnLoad (referencePlatform "[]" (JSValue.arr [])) sampleState "[]").notifications ∧
    (importOnLoad (referencePlatform "[]" (JSValue.arr [])) sampleState "[]").weatherData
      = sampleState.weatherData := by
  refine ⟨by simp [referencePlatform], by decide, by decide, by rfl⟩

/-- C8. When the record in memory is the record of the store, holds no key
twice, and the JSON functions of the browser read back the text they write for
it, `exportData` downloads one file, the text of the record, and importing
that file leaves the four series of the record in memory as they were. -/
theorem export_then_import (P : Platform) (st : AppState)
    (hread : P.dbReadOk = true) (hdb : st.db = some st.weatherData)
    (hwf : st.weatherData.WellFormed)
    (hjson : P.jsonParse (P.jsonStringify st.weatherData.toJS) = some st.weatherData.toJS) :
    (exportData P st).downloads = st.downloads ++ [P.jsonStringify st.weatherData.toJS] ∧
    (exportData P st).weatherData = st.weatherData ∧
    (importOnLoad P (exportData P st) (P.jsonStringify st.weatherData.toJS)).weatherData
      = st.weatherData := by
  have hexp : exportData P st
      = { st with downloads := st.downloads ++ [P.jsonStringify st.weatherData.toJS],
                  localStorage := setItem st.localStorage "last_export_date" P.nowISO,
                  notifications := st.notifications ++ [Notification.exportSuccess] } := by
    simp [exportData, hread, getWeatherDataFromDB, hdb]
  refine ⟨by rw [hexp], by rw [hexp], ?_⟩
  rw [importOnLoad_obj P _ _ _ hjson, hexp]
  have h1 : objGet [("rainfall", JSValue.obj st.weatherData.rainfall),
      ("temperature", JSValue.obj st.weatherData.temperature),
      ("comments", JSValue.obj st.weatherData.comments),
      ("watts", JSValue.obj st.weatherData.watts)] "rainfall"
      = some (JSValue.obj st.weatherData.rainfall) := by simp [objGet]
  have h2 : objGet [("rainfall", JSValue.obj st.weatherData.rainfall),
      ("temperature", JSValue.obj st.weatherData.temperature),
      ("comments", JSValue.obj st.weatherData.comments),
      ("watts", JSValue.obj st.weatherData.watts)] "temperature"
      = some (JSValue.obj st.weatherData.temperature) := by simp [objGet]
  have h3 : objGet [("rainfall", JSValue.obj st.weatherData.rainfall),
      ("temperature", JSValue.obj st.weatherData.temperature),
      ("comments", JSValue.obj st.weatherData.comments),
      ("watts", JSValue.obj st.weatherData.watts)] "comments"
      = some (JSValue.obj st.weatherData.comments) := by simp [objGet]
  have h4 : objGet [("rainfall", JSValue.obj st.weatherData.rainfall),
      ("temperature", JSValue.obj st.weatherData.temperature),
      ("comments", JSValue.obj st.weatherData.comments),
      ("watts", JSValue.obj st.weatherData.watts)] "watts"
      = some (JSValue.obj st.weatherData.watts) := by simp [objGet]
  simp only [h1, h2, h3, h4, truthy, if_true, spread2_self _ hwf.1, spread2_self _ hwf.2.1,
    spread2_self _ hwf.2.2.1, spread2_self _ hwf.2.2.2]

/-- C8 on a saved record with rain, a comment and power readings. -/
theorem export_then_import_witness :
    savedState.db = some savedState.weatherData ∧
    savedState.weatherData.WellFormed ∧
    (importOnLoad (referencePlatform "export" savedState.weatherData.toJS)
      (exportData (referencePlatform "export" savedState.weatherData.toJS) savedState)
      ((referencePlatform "export" savedState.weatherData.toJS).jsonStringify
        savedState.weatherData.toJS)).weatherData = savedState.weatherData :=
  ⟨rfl, by decide,
   (export_then_import (referencePlatform "export" savedState.weatherData.toJS) savedState
      rfl rfl (by decide) (by simp [referencePlatform])).2.2⟩

/-! ## Period averages -/

theorem foldl_accumulate (f : String × JSValue → Option ℚ) (l : JSObject) (acc : ℚ × Nat) :
    l.foldl (fun acc p => accumulate acc (f p)) acc
      = (acc.1 + (l.filterMap f).sum, acc.2 + (l.filterMap f).length) := by
  induction l generalizing acc with
  | nil => simp
  | cons p rest ih =>
    simp only [List.foldl_cons]
    rw [ih]
    cases hf : f p with
    | none => simp [accumulate, List.filterMap_cons, hf]
    | some q =>
      simp only [accumulate, List.filterMap_cons, hf, List.sum_cons, List.length_cons]
      refine Prod.ext ?_ ?_
      · simp [add_assoc]
      · simp only []
        omega

theorem meanOf_eq_meanOrNull (xs : List ℚ) :
    meanOf (0 + xs.sum, 0 + xs.length) = meanOrNull xs := by
  cases xs with
  | nil => simp [meanOf, meanOrNull]
  | cons x rest => simp [meanOf, meanOrNull]

/-- C9. The period query of the year view returns as `morningAvg` the
arithmetic mean of the morning values that are numbers among the entries whose
date lies in the period, as `afternoonAvg` the mean of the afternoon values
that are numbers there, each on its own, and `null` for a part of the day
without such a value. -/
theorem period_average (P : Platform) (st : AppState) (startDate endDate : JSDate) :
    (getTemperatureDataForPeriod P st startDate endDate).morningAvg
      = meanOrNull (readingsInPeriod P st startDate endDate "morning") ∧
    (getTemperatureDataForPeriod P st startDate endDate).afternoonAvg
      = meanOrNull (readingsInPeriod P st startDate endDate "afternoon") ∧
    (readingsInPeriod P st startDate endDate "morning" = [] →
      (getTemperatureDataForPeriod P st startDate endDate).morningAvg = JSValue.null) ∧
    (readingsInPeriod P st startDate endDate "afternoon" = [] →
      (getTemperatureDataForPeriod P st startDate endDate).afternoonAvg = JSValue.null) := by
  have hm : (getTemperatureDataForPeriod P st startDate endDate).morningAvg
      = meanOrNull (readingsInPeriod P st startDate endDate "morning") := by
    simp only [getTemperatureDataForPeriod, readingsInPeriod]
    rw [foldl_accumulate (fun p => reading "morning" p.2)]
    exact meanOf_eq_meanOrNull _
  have ha : (getTemperatureDataForPeriod P st startDate endDate).afternoonAvg
      = meanOrNull (readingsInPeriod P st startDate endDate "afternoon") := by
    simp only [getTemperatureDataForPeriod, readingsInPeriod]
    rw [foldl_accumulate (fun p => reading "afternoon" p.2)]
    exact meanOf_eq_meanOrNull _
  refine ⟨hm, ha, ?_, ?_⟩
  · intro h; rw [hm, h]; rfl
  · intro h; rw [ha, h]; rfl

/-- C9 on January 2024 with the morning values 10 and 20 and no afternoon
value: the morning average is 15 and the afternoon average is `null`. -/
theorem period_average_witness :
    (getTemperatureDataForPeriod (referencePlatform "" JSValue.null) januaryMornings
      (isoDateParse "2024-01-01") (isoDateParse "2024-01-31")).morningAvg = JSValue.num 15 ∧
    (getTemperatureDataForPeriod (referencePlatform "" JSValue.null) januaryMornings
      (isoDateParse "2024-01-01") (isoDateParse "2024-01-31")).afternoonAvg = JSValue.null := by
  have h := period_average (referencePlatform "" JSValue.null) januaryMornings
    (isoDateParse "2024-01-01") (isoDateParse "2024-01-31")
  have hm : readingsInPeriod (referencePlatform "" JSValue.null) januaryMornings
      (isoDateParse "2024-01-01") (isoDateParse "2024-01-31") "morning" = [10, 20] := by
    decide
  have ha : readingsInPeriod (referencePlatform "" JSValue.null) januaryMornings
      (isoDateParse "2024-01-01") (isoDateParse "2024-01-31") "afternoon" = [] := by
    decide
  refine ⟨?_, h.2.2.2 ha⟩
  rw [h.1, hm]
  simp only [meanOrNull, List.sum_cons, List.sum_nil, List.length_cons, List.length_nil]
  norm_num

end Meteo
